import Mathlib

/-!
Verification development for the distance-vector routing simulator
`DistanceVector.py`.

The program is embedded shallowly:

* `Cost` is `Option Int`; `none` plays the role of the Python `float('inf')`
  sentinel for "unreachable", `some c` a finite integer cost.
* The topology (`defaultdict(dict)` in the source) is an ordered association
  list `Graph`; inner dictionaries keep Python's insertion-order semantics
  (overwrite preserves position, fresh keys are appended), because the
  relaxation loop iterates adjacency in that order when breaking ties.
* Distance tables (`{node: {neighbour: {dest: cost}}}`) are total functions
  `Router → Router → Router → Cost`; entries the Python dictionaries do not
  hold are represented by `none`, matching the `.get(dest, float('inf'))`
  reads used throughout the source.
* The relaxation sweep of `distance_vector` reads only the previous round's
  committed tables (the source double-buffers with `copy.deepcopy`), so it is
  embedded as a pointwise function of the old state.  In contrast
  `update_distance_tables` mutates its table in place while iterating, so it
  is embedded as sequential folds threading the table.
* The unbounded `while not converged` loop is embedded with explicit fuel;
  the Boolean result records whether a fixpoint was reached within the fuel.
-/

abbrev Router := String

/-- Finite integer cost (`some c`) or the unreachable sentinel (`none`),
standing for the Python `float('inf')`. -/
abbrev Cost := Option Int

/-- Python `min` on two cost values, with `inf` losing to any finite value. -/
def cmin : Cost → Cost → Cost
  | none, y => y
  | some x, none => some x
  | some x, some y => some (min x y)

/-- Minimum of `f` over a list of routers; value-equal to the Python
`min(...)` generator expressions (skipped elements are passed as `none`,
which is the identity of `cmin`). -/
def cminOver (f : Router → Cost) : List Router → Cost
  | [] => none
  | m :: ms => cmin (f m) (cminOver f ms)

/-- The Python pattern `cost += neighbour_cost if neighbour_cost != inf else inf`
where `cost` is a finite link cost. -/
def cadd (a : Int) : Cost → Cost
  | none => none
  | some x => some (a + x)

/-- Addition where the left operand may itself be unreachable
(line 88 of the source: `link_cost + min_neighbour_cost`). -/
def caddC : Cost → Cost → Cost
  | none, _ => none
  | some a, x => cadd a x

/-- Python strict `<` on costs (`inf < inf` and `inf < c` are false). -/
def clt : Cost → Cost → Bool
  | some a, some b => decide (a < b)
  | some _, none => true
  | none, _ => false

/-- Inner adjacency dictionary: ordered association list of neighbour/cost. -/
abbrev Adj := List (Router × Int)

/-- Outer topology dictionary: ordered association list of router/adjacency. -/
abbrev Graph := List (Router × Adj)

/-- Dictionary write `d[k] = v`: overwrite in place, else append (Python
insertion-order semantics). -/
def alset (k : Router) (v : Int) : Adj → Adj
  | [] => [(k, v)]
  | (a, b) :: t => if a = k then (k, v) :: t else (a, b) :: alset k v t

/-- Dictionary delete `del d[k]` (no-op when absent, as all deletes in the
source are guarded by membership tests).  Written as a filter, which agrees
with Python's `del` because dictionary keys are unique. -/
def aldel (k : Router) : Adj → Adj
  | [] => []
  | (a, b) :: t => if a = k then aldel k t else (a, b) :: aldel k t

/-- Dictionary lookup. -/
def allookup (k : Router) : Adj → Option Int
  | [] => none
  | (a, b) :: t => if a = k then some b else allookup k t

/-- `graph[a]` with the `defaultdict` empty default. -/
def gadj (g : Graph) (a : Router) : Adj :=
  match g with
  | [] => []
  | (x, l) :: t => if x = a then l else gadj t a

/-- `graph[a][b]` as an optional cost (`none` when the link is absent). -/
def glookup (g : Graph) (a b : Router) : Option Int :=
  allookup b (gadj g a)

/-- `graph[a][b] = c`. -/
def gset (g : Graph) (a b : Router) (c : Int) : Graph :=
  match g with
  | [] => [(a, [(b, c)])]
  | (x, l) :: t => if x = a then (x, alset b c l) :: t else (x, l) :: gset t a b c

/-- `del graph[a][b]` (guarded in the source by `if b in graph[a]`). -/
def gdel (g : Graph) (a b : Router) : Graph :=
  match g with
  | [] => []
  | (x, l) :: t => if x = a then (x, aldel b l) :: t else (x, l) :: gdel t a b

/-- One link line of the initial-topology block (lines 23-27): a cost `≠ -1`
stores a symmetric link, a `-1` line is skipped.  No validation of any kind
is performed. -/
def read_link_line (g : Graph) (e : Router × Router × Int) : Graph :=
  if e.2.2 = -1 then g else gset (gset g e.1 e.2.1 e.2.2) e.2.1 e.1 e.2.2

/-- The graph-building part of `read_topology` (lines 19-27). -/
def read_topology_graph (links : List (Router × Router × Int)) : Graph :=
  links.foldl read_link_line []

/-- One edit of `apply_updates` (lines 43-52), identical to the graph
mutations performed per edit by `update_distance_tables` (lines 67-72, 93-94):
cost `-1` deletes both directions, otherwise both directions are set. -/
def apply_update_edit (g : Graph) (e : Router × Router × Int) : Graph :=
  if e.2.2 = -1 then gdel (gdel g e.1 e.2.1) e.2.1 e.1
  else gset (gset g e.1 e.2.1 e.2.2) e.2.1 e.1 e.2.2

/-- Distance table: node → neighbour(row) → destination(column) → cost. -/
abbrev Table := Router → Router → Router → Cost

/-- Routing table: node → destination → optional next hop. -/
abbrev Routing := Router → Router → Option Router

/-- Pointwise table write `T[a][b][c] = v`. -/
def tset (T : Table) (a b c : Router) (v : Cost) : Table :=
  fun x y z => if x = a ∧ y = b ∧ z = c then v else T x y z

/-- Distance-table part of `initialise_tables` (lines 129-149): every entry
unreachable except the node's own row, which mirrors its direct links, and
the entry `T[n][k][k]` for each direct neighbour `k`. -/
def initialise_distance (g : Graph) : Table := fun n k d =>
  if k = n then glookup g n d
  else if d = k then glookup g n k
  else none

/-- Routing-table part of `initialise_tables` (line 137, 145): next hop to
each direct neighbour is that neighbour, everything else unset. -/
def initialise_routing (g : Graph) : Routing := fun n d =>
  if d ≠ n ∧ (glookup g n d).isSome then some d else none

/-- The quantity `best(k,d)` computed inline at lines 227-230 of the
relaxation loop: the minimum of `DistanceTable[k][m][d]` over rows
`m ∈ nodes` with `m ≠ excl`.  The main sweep calls it with `excl = k`
(the generator is `for n in nodes if n != neighbour`); the recomputation of
`update_distance_tables` calls it with `excl = node` (line 117). -/
def bestVia (nodes : List Router) (T : Table) (k d excl : Router) : Cost :=
  cminOver (fun m => if m = excl then none else T k m d) nodes

/-- `old_cost` at lines 241-244: minimum over all rows (the node's own row
included) of the node's table for destination `d`. -/
def old_cost (nodes : List Router) (T : Table) (n d : Router) : Cost :=
  cminOver (fun m => T n m d) nodes

/-- One step of the neighbour fold of lines 218-237: candidate cost via the
neighbour, with strict improvement of the tracked minimum/next hop. -/
def selStep (nodes : List Router) (T : Table) (n d : Router)
    (acc : Cost × Option Router) (p : Router × Int) : Cost × Option Router :=
  if p.1 = n then acc
  else
    let c : Cost := if p.1 = d then some p.2 else cadd p.2 (bestVia nodes T p.1 d p.1)
    if clt c acc.1 then (c, some p.1) else acc

/-- Selected cost and next hop for `(n, d)` in one sweep (lines 208-237):
initialised from the direct link when present, then folded over `n`'s
adjacency in insertion order with strict `<` (first neighbour wins ties). -/
def select (g : Graph) (nodes : List Router) (T : Table) (n d : Router) :
    Cost × Option Router :=
  (gadj g n).foldl (selStep nodes T n d)
    (match glookup g n d with
     | some c => (some c, some d)
     | none => (none, none))

/-- The new distance table produced by one relaxation sweep (written into
`new_distances`, lines 217-232): for every neighbour row `k ∈ graph[n]`
(`k ≠ n`) and destination `d ∈ nodes` (`d ≠ n`), the direct cost when
`k = d`, otherwise `cost(n,k) + best(k,d)`; all other entries keep their
previous value (the `deepcopy`). -/
def sweepT (g : Graph) (nodes : List Router) (T : Table) : Table := fun n k d =>
  match glookup g n k with
  | some c =>
    if (decide (n ∈ nodes) && decide (d ∈ nodes) && decide (d ≠ n) && decide (k ≠ n)) = true then
      (if k = d then some c else cadd c (bestVia nodes T k d k))
    else T n k d
  | none => T n k d

/-- The per-pair change test of lines 239-247: a pair flags a change only
when its selected cost is finite and differs from `old_cost`, or its next
hop differs from the stored routing entry. -/
def pairChanged (g : Graph) (nodes : List Router) (T : Table) (R : Routing)
    (n d : Router) : Bool :=
  match select g nodes T n d with
  | (none, _) => false
  | (some m, nh) =>
    !(decide (some m = old_cost nodes T n d) && decide (nh = R n d))

/-- The new routing table of a sweep (line 246): updated only for flagged
pairs. -/
def sweepR (g : Graph) (nodes : List Router) (T : Table) (R : Routing) : Routing :=
  fun n d =>
    if (decide (n ∈ nodes) && decide (d ∈ nodes) && decide (d ≠ n) &&
        pairChanged g nodes T R n d) = true then
      (select g nodes T n d).2
    else R n d

/-- The `converged` flag computed by one sweep: true iff some pair flagged a
change. -/
def sweepChanged (g : Graph) (nodes : List Router) (T : Table) (R : Routing) : Bool :=
  nodes.any (fun n => nodes.any (fun d => decide (d ≠ n) && pairChanged g nodes T R n d))

/-- The `while not converged` loop of lines 201-250 (without the update
branch), with explicit fuel standing in for the absent round bound.  Returns
the committed tables of the first quiet sweep, and `true` iff a quiet sweep
occurred within the fuel. -/
def convergeLoop (g : Graph) (nodes : List Router) :
    Nat → Table → Routing → Table × Routing × Bool
  | 0, T, R => (T, R, false)
  | Nat.succ fuel, T, R =>
    let T2 := sweepT g nodes T
    let R2 := sweepR g nodes T R
    if sweepChanged g nodes T R = true then convergeLoop g nodes fuel T2 R2
    else (T2, R2, true)

/-- The `removed_links` dictionary of lines 59-63, read before any edit is
applied: `(a,b)` maps to the pre-update `graph[a][b]` when some `-1` update
names the pair (in either orientation recorded by the source) and its
oriented link test `dest in graph[src]` succeeds; otherwise the `.get`
default `inf`. -/
def removedLookup (g : Graph) (updates : List (Router × Router × Int)) :
    Router → Router → Cost := fun a b =>
  if updates.any (fun e =>
      decide (e.2.2 = -1) &&
      (decide (e.1 = a ∧ e.2.1 = b) || decide (e.1 = b ∧ e.2.1 = a)) &&
      (glookup g e.1 e.2.1).isSome) then
    glookup g a b
  else none

/-- One step of the destination loop of lines 80-90: for
`d ∉ {node, neighbour}`, set `T[node][neighbour][d]` to unreachable when it
currently equals the removed link cost plus the neighbour's minimum estimate
over rows `≠ node`. -/
def invalStep (nodes : List Router) (rl : Router → Router → Cost)
    (node neighbour : Router) (T : Table) (d : Router) : Table :=
  if d ≠ node ∧ d ≠ neighbour then
    let mnc := cminOver (fun m => if m = node then none else T neighbour m d) nodes
    let expected := caddC (rl node neighbour) mnc
    if T node neighbour d = expected then tset T node neighbour d none else T
  else T

/-- The destination loop of lines 80-90, threading the table (the source
mutates in place). -/
def invalDests (nodes : List Router) (rl : Router → Router → Cost)
    (node neighbour : Router) (T : Table) : Table :=
  nodes.foldl (invalStep nodes rl node neighbour) T

/-- Lines 74-90 for one `(node, neighbour)` orientation of a removed pair:
the loop over `nodes` fires exactly when `neighbour ∈ nodes` and
`neighbour ≠ node`; it first sets the direct entry
`T[node][neighbour][neighbour]` to unreachable, then invalidates matching
multi-hop entries. -/
def invalPair (nodes : List Router) (rl : Router → Router → Cost)
    (node neighbour : Router) (T : Table) : Table :=
  if neighbour ∈ nodes ∧ neighbour ≠ node then
    invalDests nodes rl node neighbour (tset T node neighbour neighbour none)
  else T

/-- One edit of the second loop of `update_distance_tables` (lines 66-100),
threading graph and table.  Removal deletes the link in both directions and
invalidates (for `node = src` then `node = dest`); a set updates the link and
the four direct-entry writes of lines 96-100 in source order. -/
def updateOneEdit (nodes : List Router) (rl : Router → Router → Cost)
    (st : Graph × Table) (e : Router × Router × Int) : Graph × Table :=
  if e.2.2 = -1 then
    let g2 := gdel (gdel st.1 e.1 e.2.1) e.2.1 e.1
    let T1 := invalPair nodes rl e.1 e.2.1 st.2
    let T2 := invalPair nodes rl e.2.1 e.1 T1
    (g2, T2)
  else
    let g2 := gset (gset st.1 e.1 e.2.1 e.2.2) e.2.1 e.1 e.2.2
    let T1 := tset st.2 e.1 e.2.1 e.2.1 (some e.2.2)
    let T2 := tset T1 e.2.1 e.1 e.1 (some e.2.2)
    let T3 := tset T2 e.1 e.1 e.2.1 (some e.2.2)
    let T4 := tset T3 e.2.1 e.2.1 e.1 (some e.2.2)
    (g2, T4)

/-- Innermost step of the recomputation of lines 102-122: for
`dest ∉ {node, neighbour}` overwrite `T[node][neighbour][dest]` with
`cost(node,neighbour)` plus the direct `graph[neighbour][dest]` if present,
else the minimum of the neighbour's rows `≠ node`; unreachable when the
`node`-`neighbour` link is gone.  The table is threaded in place. -/
def recomputeDestStep (g : Graph) (nodes : List Router) (node neighbour : Router)
    (T : Table) (dest : Router) : Table :=
  if dest ≠ node ∧ dest ≠ neighbour then
    match glookup g node neighbour with
    | some c =>
      let nc :=
        match glookup g neighbour dest with
        | some x => some x
        | none => cminOver (fun m => if m = node then none else T neighbour m dest) nodes
      tset T node neighbour dest (cadd c nc)
    | none => tset T node neighbour dest none
  else T

/-- The neighbour level of the recomputation loops. -/
def recomputeNbrStep (g : Graph) (nodes : List Router) (node : Router)
    (T : Table) (neighbour : Router) : Table :=
  if neighbour ≠ node then nodes.foldl (recomputeDestStep g nodes node neighbour) T
  else T

/-- The node level of the recomputation loops. -/
def recomputeNodeStep (g : Graph) (nodes : List Router) (T : Table) (node : Router) : Table :=
  nodes.foldl (recomputeNbrStep g nodes node) T

/-- The three nested loops of lines 102-122 in iteration order. -/
def recomputePass (g : Graph) (nodes : List Router) (T : Table) : Table :=
  nodes.foldl (recomputeNodeStep g nodes) T

/-- `update_distance_tables` (lines 56-124): record removed link costs,
apply the edits (mutating graph and table), then run the in-place
recomputation pass over the updated graph.  Returns the mutated graph and
table. -/
def update_distance_tables (g : Graph) (nodes : List Router)
    (updates : List (Router × Router × Int)) (T : Table) : Graph × Table :=
  let rl := removedLookup g updates
  let gT := updates.foldl (updateOneEdit nodes rl) (g, T)
  (gT.1, recomputePass gT.1 nodes gT.2)

/-- Result of a full `distance_vector` run: tables at the first convergence
(the pre-update routing print of line 257) and at the end (line 309), plus
whether both loops reached fixpoint within the fuel. -/
structure DVResult where
  preT : Table
  preR : Routing
  finT : Table
  finR : Routing
  ok : Bool

/-- `distance_vector` (lines 190-310): initialise, iterate to the first
quiet sweep, and — when updates are queued — apply `update_distance_tables`,
run the immediate extra sweep of lines 265-299 (after which `converged` is
still False, so the main loop always continues), and iterate to fixpoint
again.  Fuel bounds each loop because the source has no round bound. -/
def distance_vector (fuel : Nat) (g : Graph) (nodes : List Router)
    (updates : List (Router × Router × Int)) : DVResult :=
  let T0 := initialise_distance g
  let R0 := initialise_routing g
  let p1 := convergeLoop g nodes fuel T0 R0
  match updates with
  | [] => ⟨p1.1, p1.2.1, p1.1, p1.2.1, p1.2.2⟩
  | _ :: _ =>
    let gT := update_distance_tables g nodes updates p1.1
    let T3 := sweepT gT.1 nodes gT.2
    let R3 := sweepR gT.1 nodes gT.2 p1.2.1
    let p2 := convergeLoop gT.1 nodes fuel T3 R3
    ⟨p1.1, p1.2.1, p2.1, p2.2.1, p1.2.2 && p2.2.2⟩

/-- The guard of `main` (lines 318-319): the simulation (and with it all
output, which happens only inside `distance_vector` and the print helpers it
calls) runs only when the parsed graph and the node list are both
non-empty. -/
def mainRuns (nodes : List Router) (links : List (Router × Router × Int)) : Bool :=
  !(read_topology_graph links).isEmpty && !nodes.isEmpty

/-- The cell rendered by `print_distance_tables` for router `node` at row
label `neighbour` and column label `dest` (line 168 of the source:
`distance_tables[node].get(dest, {}).get(neighbour, float('inf'))`). -/
def print_cell (T : Table) (node neighbour dest : Router) : Cost :=
  T node dest neighbour

/-- The cost printed by `print_routing_tables` for a reachable destination
(lines 180-188): minimum over all neighbour rows of the node's table. -/
def printed_route_cost (nodes : List Router) (T : Table) (n d : Router) : Cost :=
  old_cost nodes T n d

/-- Modelled from the spec words of claim C1: "the minimum finite value of
`DistanceTable[k][m][d]` taken over all of `k`'s rows `m`" — with no row
excluded.  Used only to compare the claim against the code's `bestVia`. -/
def specBestAllRows (nodes : List Router) (T : Table) (k d : Router) : Cost :=
  cminOver (fun m => T k m d) nodes

/-- Node list of the three-router scenarios (input order `A`, `B`, `C`). -/
def nodesABC : List Router := ["A", "B", "C"]

/-- The line topology of the concrete scenario in the spec: links `A-B` cost 1
and `B-C` cost 1, no `A-C` link. -/
def gLine : Graph := read_topology_graph [("A", "B", 1), ("B", "C", 1)]

/-- The line topology after removing the `B-C` link (the graph produced by
`update_distance_tables gLine nodesABC [("B","C",-1)] _`): Python keeps the
emptied adjacency dictionary of `C`. -/
def gCut : Graph := [("A", [("B", 1)]), ("B", [("A", 1)]), ("C", [])]

/-- The all-unreachable table. -/
def tnone : Table := fun _ _ _ => none

/-- A concrete distance-table state on `gLine` whose sweep reports no change
(the engine's fixpoint test) while still rewriting entries: row `C` of `B`'s
table is stale-unreachable although the `B-C` link exists, and `B`'s own row
still holds the direct cost 1. -/
def S5 : Table :=
  tset (tset (tset (tset (tset (tset (tset (tset tnone
    "A" "A" "B" (some 1))
    "A" "B" "B" (some 1))
    "B" "B" "A" (some 1))
    "B" "A" "A" (some 1))
    "B" "B" "C" (some 1))
    "C" "C" "B" (some 1))
    "C" "B" "B" (some 1))
    "C" "B" "A" (some 2)

/-- Routing state matching `S5`. -/
def R5 : Routing := fun n d =>
  if n = "A" ∧ d = "B" then some "B"
  else if n = "B" ∧ d = "A" then some "A"
  else if n = "B" ∧ d = "C" then some "C"
  else if n = "C" ∧ d = "A" then some "B"
  else if n = "C" ∧ d = "B" then some "B"
  else none

/-- Shape of the post-update oscillating state with `T[A][B][C]` unreachable
and `T[B][A][C] = k` (the stale own-row entry `T[B][B][C] = 1` survives the
link removal and keeps feeding finite candidates). -/
abbrev InvA (k : Int) (T : Table) : Prop :=
  T "A" "A" "B" = some 1 ∧ T "A" "B" "B" = some 1 ∧ T "A" "C" "B" = none ∧
  T "A" "A" "C" = none ∧ T "A" "B" "C" = none ∧ T "A" "C" "C" = none ∧
  T "B" "A" "A" = some 1 ∧ T "B" "B" "A" = some 1 ∧ T "B" "C" "A" = none ∧
  T "B" "A" "C" = some k ∧ T "B" "B" "C" = some 1 ∧ T "B" "C" "C" = none

/-- Mirror shape with `T[A][B][C] = k` finite and `T[B][A][C]` unreachable. -/
abbrev InvB (k : Int) (T : Table) : Prop :=
  T "A" "A" "B" = some 1 ∧ T "A" "B" "B" = some 1 ∧ T "A" "C" "B" = none ∧
  T "A" "A" "C" = none ∧ T "A" "B" "C" = some k ∧ T "A" "C" "C" = none ∧
  T "B" "A" "A" = some 1 ∧ T "B" "B" "A" = some 1 ∧ T "B" "C" "A" = none ∧
  T "B" "A" "C" = none ∧ T "B" "B" "C" = some 1 ∧ T "B" "C" "C" = none

/-- The routing entries read while sweeping the oscillating states. -/
abbrev InvR6 (R : Routing) : Prop :=
  R "A" "B" = some "B" ∧ R "A" "C" = some "B" ∧
  R "B" "A" = some "A" ∧ R "B" "C" = some "A"

/-- Disjunction of the two oscillation shapes. -/
def Inv6 (T : Table) : Prop := ∃ k : Int, 1 ≤ k ∧ (InvA k T ∨ InvB k T)

/-- Node list of the two-router witness scenario. -/
def nodesAB : List Router := ["A", "B"]

/-- Two routers with a single link `A-B` cost 1. -/
def gAB : Graph := read_topology_graph [("A", "B", 1)]

/-- The converged distance table of `gAB`: own rows and direct rows hold the
link cost, everything else unreachable.  A sweep leaves it unchanged
entry for entry. -/
def TAB : Table :=
  tset (tset (tset (tset tnone "A" "A" "B" (some 1)) "A" "B" "B" (some 1))
    "B" "B" "A" (some 1)) "B" "A" "A" (some 1)

/-- The converged routing table of `gAB`. -/
def RAB : Routing := fun n d =>
  if n = "A" ∧ d = "B" then some "B"
  else if n = "B" ∧ d = "A" then some "A"
  else none

/-! ### Dictionary characterisation lemmas -/

theorem allookup_alset (l : Adj) (k x : Router) (v : Int) :
    allookup x (alset k v l) = if x = k then some v else allookup x l := by
  induction l with
  | nil =>
    rcases eq_or_ne x k with h | h
    · subst h; simp [alset, allookup]
    · simp [alset, allookup, h, Ne.symm h]
  | cons p t ih =>
    obtain ⟨a, b⟩ := p
    rcases eq_or_ne a k with h | h <;> rcases eq_or_ne a x with h2 | h2
    · subst h; subst h2; simp [alset, allookup]
    · subst h; simp [alset, allookup, h2, Ne.symm h2]
    · subst h2; simp [alset, allookup, h, Ne.symm h, ih]
    · simp [alset, allookup, h, h2, Ne.symm h2, ih]

theorem allookup_aldel (l : Adj) (k x : Router) :
    allookup x (aldel k l) = if x = k then none else allookup x l := by
  induction l with
  | nil => simp [aldel, allookup]
  | cons p t ih =>
    obtain ⟨a, b⟩ := p
    rcases eq_or_ne a k with h | h <;> rcases eq_or_ne a x with h2 | h2
    · subst h; subst h2; simp [aldel, allookup, ih]
    · subst h; simp [aldel, allookup, h2, Ne.symm h2, ih]
    · subst h2; simp [aldel, allookup, h, Ne.symm h, ih]
    · simp [aldel, allookup, h, h2, Ne.symm h2, ih]

theorem gadj_gset (g : Graph) (a b : Router) (c : Int) (x : Router) :
    gadj (gset g a b c) x = if x = a then alset b c (gadj g a) else gadj g x := by
  induction g with
  | nil =>
    rcases eq_or_ne x a with h | h
    · subst h; simp [gset, gadj, alset]
    · simp [gset, gadj, h, Ne.symm h]
  | cons p t ih =>
    obtain ⟨y, l⟩ := p
    rcases eq_or_ne y a with h | h <;> rcases eq_or_ne y x with h2 | h2
    · subst h; subst h2; simp [gset, gadj]
    · subst h; simp [gset, gadj, h2, Ne.symm h2]
    · subst h2; simp [gset, gadj, h, Ne.symm h]
    · simp [gset, gadj, h, h2, Ne.symm h2, ih]

theorem gadj_gdel (g : Graph) (a b : Router) (x : Router) :
    gadj (gdel g a b) x = if x = a then aldel b (gadj g a) else gadj g x := by
  induction g with
  | nil => simp [gdel, gadj, aldel]
  | cons p t ih =>
    obtain ⟨y, l⟩ := p
    rcases eq_or_ne y a with h | h <;> rcases eq_or_ne y x with h2 | h2
    · subst h; subst h2; simp [gdel, gadj]
    · subst h; simp [gdel, gadj, h2, Ne.symm h2]
    · subst h2; simp [gdel, gadj, h, Ne.symm h]
    · simp [gdel, gadj, h, h2, Ne.symm h2, ih]

theorem glookup_gset (g : Graph) (a b : Router) (c : Int) (x y : Router) :
    glookup (gset g a b c) x y = if x = a ∧ y = b then some c else glookup g x y := by
  unfold glookup
  rw [gadj_gset]
  rcases eq_or_ne x a with hx | hx
  · subst hx
    rw [if_pos rfl, allookup_alset]
    rcases eq_or_ne y b with hy | hy <;> simp [hy]
  · simp [hx]

theorem glookup_gdel (g : Graph) (a b : Router) (x y : Router) :
    glookup (gdel g a b) x y = if x = a ∧ y = b then none else glookup g x y := by
  unfold glookup
  rw [gadj_gdel]
  rcases eq_or_ne x a with hx | hx
  · subst hx
    rw [if_pos rfl, allookup_aldel]
    rcases eq_or_ne y b with hy | hy <;> simp [hy]
  · simp [hx]

/-! ### Symmetry and self-loop helpers for the topology -/

theorem gset_pair_sym (g : Graph) (s t : Router) (c : Int)
    (h : ∀ x y, glookup g x y = glookup g y x) (x y : Router) :
    glookup (gset (gset g s t c) t s c) x y = glookup (gset (gset g s t c) t s c) y x := by
  rw [glookup_gset, glookup_gset, glookup_gset, glookup_gset]
  split_ifs <;> first | rfl | exact h x y | tauto

theorem gdel_pair_sym (g : Graph) (s t : Router)
    (h : ∀ x y, glookup g x y = glookup g y x) (x y : Router) :
    glookup (gdel (gdel g s t) t s) x y = glookup (gdel (gdel g s t) t s) y x := by
  rw [glookup_gdel, glookup_gdel, glookup_gdel, glookup_gdel]
  split_ifs <;> first | rfl | exact h x y | tauto

theorem apply_update_edit_sym (g : Graph) (e : Router × Router × Int)
    (h : ∀ x y, glookup g x y = glookup g y x) (x y : Router) :
    glookup (apply_update_edit g e) x y = glookup (apply_update_edit g e) y x := by
  obtain ⟨s, t, c⟩ := e
  unfold apply_update_edit
  by_cases hc : c = -1
  · rw [if_pos hc]; exact gdel_pair_sym g s t h x y
  · rw [if_neg hc]; exact gset_pair_sym g s t c h x y

theorem read_link_line_sym (g : Graph) (e : Router × Router × Int)
    (h : ∀ x y, glookup g x y = glookup g y x) (x y : Router) :
    glookup (read_link_line g e) x y = glookup (read_link_line g e) y x := by
  obtain ⟨s, t, c⟩ := e
  unfold read_link_line
  by_cases hc : c = -1
  · rw [if_pos hc]; exact h x y
  · rw [if_neg hc]; exact gset_pair_sym g s t c h x y

theorem foldl_read_sym (links : List (Router × Router × Int)) :
    ∀ g, (∀ x y, glookup g x y = glookup g y x) →
      ∀ x y, glookup (links.foldl read_link_line g) x y
           = glookup (links.foldl read_link_line g) y x := by
  induction links with
  | nil => intro g h x y; exact h x y
  | cons e es ih =>
    intro g h x y
    exact ih (read_link_line g e) (read_link_line_sym g e h) x y

theorem foldl_edits_sym (updates : List (Router × Router × Int)) :
    ∀ g, (∀ x y, glookup g x y = glookup g y x) →
      ∀ x y, glookup (updates.foldl apply_update_edit g) x y
           = glookup (updates.foldl apply_update_edit g) y x := by
  induction updates with
  | nil => intro g h x y; exact h x y
  | cons e es ih =>
    intro g h x y
    exact ih (apply_update_edit g e) (apply_update_edit_sym g e h) x y

theorem gset_pair_noloop (g : Graph) (s t : Router) (c : Int) (hst : s ≠ t)
    (h : ∀ x, glookup g x x = none) (x : Router) :
    glookup (gset (gset g s t c) t s c) x x = none := by
  rw [glookup_gset, glookup_gset,
    if_neg (fun hc => hst ((hc.2).symm.trans hc.1)),
    if_neg (fun hc => hst ((hc.1).symm.trans hc.2))]
  exact h x

theorem gdel_pair_noloop (g : Graph) (s t : Router)
    (h : ∀ x, glookup g x x = none) (x : Router) :
    glookup (gdel (gdel g s t) t s) x x = none := by
  rw [glookup_gdel, glookup_gdel]
  split_ifs <;> first | rfl | exact h x

theorem apply_update_edit_noloop (g : Graph) (e : Router × Router × Int)
    (he : e.1 ≠ e.2.1) (h : ∀ x, glookup g x x = none) (x : Router) :
    glookup (apply_update_edit g e) x x = none := by
  obtain ⟨s, t, c⟩ := e
  unfold apply_update_edit
  by_cases hc : c = -1
  · rw [if_pos hc]; exact gdel_pair_noloop g s t h x
  · rw [if_neg hc]; exact gset_pair_noloop g s t c he h x

theorem read_link_line_noloop (g : Graph) (e : Router × Router × Int)
    (he : e.1 ≠ e.2.1) (h : ∀ x, glookup g x x = none) (x : Router) :
    glookup (read_link_line g e) x x = none := by
  obtain ⟨s, t, c⟩ := e
  unfold read_link_line
  by_cases hc : c = -1
  · rw [if_pos hc]; exact h x
  · rw [if_neg hc]; exact gset_pair_noloop g s t c he h x

theorem foldl_read_noloop (links : List (Router × Router × Int)) :
    ∀ g, (∀ e ∈ links, e.1 ≠ e.2.1) → (∀ x, glookup g x x = none) →
      ∀ x, glookup (links.foldl read_link_line g) x x = none := by
  induction links with
  | nil => intro g _ h x; exact h x
  | cons e es ih =>
    intro g he h x
    exact ih (read_link_line g e) (fun a ha => he a (List.mem_cons_of_mem e ha))
      (read_link_line_noloop g e (he e (List.mem_cons_self e es)) h) x

theorem foldl_edits_noloop (updates : List (Router × Router × Int)) :
    ∀ g, (∀ e ∈ updates, e.1 ≠ e.2.1) → (∀ x, glookup g x x = none) →
      ∀ x, glookup (updates.foldl apply_update_edit g) x x = none := by
  induction updates with
  | nil => intro g _ h x; exact h x
  | cons e es ih =>
    intro g he h x
    exact ih (apply_update_edit g e) (fun a ha => he a (List.mem_cons_of_mem e ha))
      (apply_update_edit_noloop g e (he e (List.mem_cons_self e es)) h) x

theorem glookup_nil (x y : Router) : glookup [] x y = none := rfl

/-! ### Claim C9 -/

/-- C9 counterexample: the claim asserts the topology is self-loop-free at
every point, but the input line `A A 3` makes `read_topology` store a
self-loop (`graph["A"]["A"] = 3`) with no check. -/
theorem selfloop_accepted_from_input :
    glookup (read_topology_graph [("A", "A", 3)]) "A" "A" = some 3 := by decide

/-- C9 (amended): the topology is symmetric after initial construction and
after every applied edit — if `b` is in the adjacency of `a` with cost `c`
then `a` is in the adjacency of `b` with the same cost, and removal deletes
both directions (the two lookups agree, including both being absent).
Self-loop-freedom holds only under the additional hypothesis that no link
line and no update line names the same router twice; a line `x x c` with
`c ≠ -1` creates a self-loop. -/
theorem topology_symmetric_and_selfloop_guarded
    (links updates : List (Router × Router × Int)) (a b : Router) :
    glookup (read_topology_graph links) a b = glookup (read_topology_graph links) b a ∧
    glookup (updates.foldl apply_update_edit (read_topology_graph links)) a b
      = glookup (updates.foldl apply_update_edit (read_topology_graph links)) b a ∧
    ((∀ e ∈ links, e.1 ≠ e.2.1) → glookup (read_topology_graph links) a a = none) ∧
    ((∀ e ∈ links, e.1 ≠ e.2.1) → (∀ e ∈ updates, e.1 ≠ e.2.1) →
      glookup (updates.foldl apply_update_edit (read_topology_graph links)) a a = none) := by
  have hsym0 : ∀ x y, glookup (read_topology_graph links) x y
      = glookup (read_topology_graph links) y x :=
    foldl_read_sym links [] (fun x y => rfl)
  refine ⟨hsym0 a b, foldl_edits_sym updates _ hsym0 a b, ?_, ?_⟩
  · intro hl
    exact foldl_read_noloop links [] hl (fun x => rfl) a
  · intro hl hu
    exact foldl_edits_noloop updates _ hu
      (fun x => foldl_read_noloop links [] hl (fun x => rfl) x) a

/-- Witness for the amended C9 theorem at a concrete input. -/
theorem topology_symmetric_and_selfloop_guarded_witness :
    glookup (List.foldl apply_update_edit (read_topology_graph [("A", "B", 2)])
        [("A", "B", -1)]) "B" "A"
      = glookup (List.foldl apply_update_edit (read_topology_graph [("A", "B", 2)])
        [("A", "B", -1)]) "A" "B" ∧
    glookup (read_topology_graph [("A", "B", 2)]) "A" "A" = none :=
  ⟨(topology_symmetric_and_selfloop_guarded [("A", "B", 2)] [("A", "B", -1)] "B" "A").2.1,
   (topology_symmetric_and_selfloop_guarded [("A", "B", 2)] [("A", "B", -1)] "A" "B").2.2.1
     (by decide)⟩

/-! ### Claim C7 -/

/-- C7 counterexample: a link line with cost `0` (and one with cost `-5`) is
accepted and stored as a link; no `InvalidCost` error exists anywhere in the
program. -/
theorem invalid_cost_accepted :
    glookup (read_topology_graph [("A", "B", 0)]) "A" "B" = some 0 ∧
    glookup (read_topology_graph [("A", "B", -5)]) "B" "A" = some (-5) := by decide

/-- C7 (amended): neither `read_topology` nor the update path validates
costs: every edit whose cost differs from the `-1` delete sentinel —
including `0` and negative values below `-1` — is stored as a symmetric link
with exactly that cost, and no error is raised. -/
theorem no_cost_validation (links : List (Router × Router × Int))
    (a b : Router) (c : Int) (hc : c ≠ -1) :
    glookup (read_topology_graph (links ++ [(a, b, c)])) a b = some c ∧
    glookup (read_topology_graph (links ++ [(a, b, c)])) b a = some c ∧
    ∀ g : Graph, glookup (apply_update_edit g (a, b, c)) a b = some c ∧
      glookup (apply_update_edit g (a, b, c)) b a = some c := by
  have hpair : ∀ g : Graph, glookup (gset (gset g a b c) b a c) a b = some c ∧
      glookup (gset (gset g a b c) b a c) b a = some c := by
    intro g
    constructor
    · rw [glookup_gset, glookup_gset]
      split_ifs <;> first | rfl | tauto
    · rw [glookup_gset, if_pos ⟨rfl, rfl⟩]
  have happ : read_topology_graph (links ++ [(a, b, c)])
      = read_link_line (read_topology_graph links) (a, b, c) := by
    unfold read_topology_graph
    rw [List.foldl_append, List.foldl_cons, List.foldl_nil]
  have hline : read_link_line (read_topology_graph links) (a, b, c)
      = gset (gset (read_topology_graph links) a b c) b a c := by
    unfold read_link_line
    rw [if_neg hc]
  refine ⟨?_, ?_, ?_⟩
  · rw [happ, hline]; exact (hpair _).1
  · rw [happ, hline]; exact (hpair _).2
  · intro g
    have hedit : apply_update_edit g (a, b, c) = gset (gset g a b c) b a c := by
      unfold apply_update_edit
      rw [if_neg hc]
    rw [hedit]
    exact hpair g

/-- Witness for the amended C7 theorem: cost `0` is stored, not rejected. -/
theorem no_cost_validation_witness :
    glookup (read_topology_graph [("A", "B", 0)]) "A" "B" = some 0 :=
  (no_cost_validation [] "A" "B" 0 (by decide)).1

/-! ### Claim C8 -/

/-- C8 counterexample: with declared nodes `A`, `B` and the link line
`X Y 3` naming only undeclared routers, no error of any kind is raised: the
graph check in `main` passes, `distance_vector` is invoked, and the run
terminates normally (`ok = true`). -/
theorem undeclared_label_runs_to_completion :
    (("X" : Router) ∉ (["A", "B"] : List Router)) ∧
    mainRuns ["A", "B"] [("X", "Y", 3)] = true ∧
    (distance_vector 10 (read_topology_graph [("X", "Y", 3)]) ["A", "B"] []).ok = true := by
  decide

/-- C8 (amended): `read_topology` and `main` never consult the declared node
set when reading link lines: no fatal input error is raised for undeclared
labels, and the simulation is invoked whenever the node list and the stored
graph are non-empty, whatever labels appear.  (An undeclared label directly
linked to a declared router makes the program die with an uncaught
`KeyError` while indexing the distance tables — in `initialise_tables`,
before any output, when the label comes from the initial link block, or in
`update_distance_tables`, after the pre-update phase, when it comes from the
update block — an unchecked crash, not a checked input error; that crash
path lies outside this embedding.) -/
theorem undeclared_labels_not_checked (nodes : List Router)
    (links : List (Router × Router × Int)) (s t : Router) (c : Int)
    (hmem : (s, t, c) ∈ links) (hs : s ∉ nodes)
    (hn : nodes ≠ []) (hg : read_topology_graph links ≠ []) :
    mainRuns nodes links = true := by
  rcases hgr : read_topology_graph links with _ | ⟨p, rest⟩
  · exact absurd hgr hg
  · rcases hnn : nodes with _ | ⟨n0, nrest⟩
    · exact absurd hnn hn
    · simp [mainRuns, hgr]

/-- Witness for the amended C8 theorem. -/
theorem undeclared_labels_not_checked_witness :
    mainRuns ["A", "B"] [("X", "Y", 3)] = true :=
  undeclared_labels_not_checked ["A", "B"] [("X", "Y", 3)] "X" "Y" 3
    (by decide) (by decide) (by decide) (by decide)

/-! ### Claim C10 -/

theorem read_topology_graph_all_skip (links : List (Router × Router × Int)) :
    (∀ e ∈ links, e.2.2 = -1) → read_topology_graph links = [] := by
  unfold read_topology_graph
  induction links with
  | nil => intro _; rfl
  | cons e es ih =>
    intro h
    rw [List.foldl_cons,
      show read_link_line [] e = [] from by unfold read_link_line; rw [if_pos (h e (List.mem_cons_self e es))]]
    exact ih (fun a ha => h a (List.mem_cons_of_mem e ha))

/-- C10: when the declared node list is empty, or every initial link line
carries the `-1` sentinel (so the stored graph is empty), the guard of
`main` fails and `distance_vector` — the only place any output is produced —
is never invoked: the program stops right after parsing with no output, not
even round-0 tables. -/
theorem empty_input_no_simulation (nodes : List Router)
    (links : List (Router × Router × Int))
    (h : nodes = [] ∨ ∀ e ∈ links, e.2.2 = -1) :
    mainRuns nodes links = false := by
  rcases h with h | h
  · subst h
    unfold mainRuns
    rcases read_topology_graph links with _ | ⟨p, rest⟩ <;> rfl
  · unfold mainRuns
    rw [read_topology_graph_all_skip links h]
    rfl

/-- Witness for the C10 theorem at both trigger conditions. -/
theorem empty_input_no_simulation_witness :
    mainRuns [] [("A", "B", 2)] = false ∧ mainRuns ["A", "B"] [("A", "B", -1)] = false :=
  ⟨empty_input_no_simulation [] [("A", "B", 2)] (Or.inl rfl),
   empty_input_no_simulation ["A", "B"] [("A", "B", -1)] (Or.inr (by decide))⟩

/-! ### Claim C3 -/

/-- C3: on the `A`-`B`-`C` line (costs 1, 1, no `A`-`C` link) the engine
converges with `RoutingTable[A][C] = B` at printed cost 2 and
`RoutingTable[C][A] = B` at printed cost 2; after the single update adding
the `A`-`C` link with cost 1 and re-converging, `RoutingTable[A][C] = C` at
cost 1 and `RoutingTable[C][A] = A` at cost 1. -/
theorem line_scenario_update_routing :
    (distance_vector 20 gLine nodesABC [("A", "C", 1)]).ok = true ∧
    (distance_vector 20 gLine nodesABC [("A", "C", 1)]).preR "A" "C" = some "B" ∧
    printed_route_cost nodesABC (distance_vector 20 gLine nodesABC [("A", "C", 1)]).preT
      "A" "C" = some 2 ∧
    (distance_vector 20 gLine nodesABC [("A", "C", 1)]).preR "C" "A" = some "B" ∧
    printed_route_cost nodesABC (distance_vector 20 gLine nodesABC [("A", "C", 1)]).preT
      "C" "A" = some 2 ∧
    (distance_vector 20 gLine nodesABC [("A", "C", 1)]).finR "A" "C" = some "C" ∧
    printed_route_cost nodesABC (distance_vector 20 gLine nodesABC [("A", "C", 1)]).finT
      "A" "C" = some 1 ∧
    (distance_vector 20 gLine nodesABC [("A", "C", 1)]).finR "C" "A" = some "A" ∧
    printed_route_cost nodesABC (distance_vector 20 gLine nodesABC [("A", "C", 1)]).finT
      "C" "A" = some 1 := by
  decide

/-! ### Claim C4 -/

/-- C4: the claim says the printed cell at row `neighbour`, column `dest`
renders `DistanceTable[R][neighbour][dest]`; line 168 of the source instead
reads `distance_tables[node].get(dest, {}).get(neighbour, inf)` — the
transposed entry — contradicting both the spec and the data-model docstring
at line 128 (`{node: {neighbour: {dest: cost}}}`).  On the line topology
`A-B` cost 1, `B-C` cost 5, router `B`'s snapshot after two sweeps prints 11
in the cell (row `A`, column `C`) whose table entry is 7. -/
theorem print_cell_transposed :
    print_cell
        (sweepT (read_topology_graph [("A", "B", 1), ("B", "C", 5)]) nodesABC
          (sweepT (read_topology_graph [("A", "B", 1), ("B", "C", 5)]) nodesABC
            (initialise_distance (read_topology_graph [("A", "B", 1), ("B", "C", 5)]))))
        "B" "A" "C" = some 11 ∧
    (sweepT (read_topology_graph [("A", "B", 1), ("B", "C", 5)]) nodesABC
          (sweepT (read_topology_graph [("A", "B", 1), ("B", "C", 5)]) nodesABC
            (initialise_distance (read_topology_graph [("A", "B", 1), ("B", "C", 5)]))))
        "B" "A" "C" = some 7 := by
  decide

/-! ### Claim C5 -/

/-- C5 counterexample: a state the engine's own test declares a fixpoint
(a full sweep reports zero changes) on which one additional sweep reports
changes.  On `gLine`, state `S5` has a stale-unreachable row `C` in `B`'s
table for destination `C` together with the stale own-row entry
`T[B][B][C] = 1`; the first sweep is quiet but rewrites `T[B][C][C]` back to
the direct cost 1, after which the next sweep finds a finite selected cost
for `(A, C)` that differs from the stored minimum and flags a change. -/
theorem converged_flag_not_idempotent :
    sweepChanged gLine nodesABC S5 R5 = false ∧
    sweepChanged gLine nodesABC (sweepT gLine nodesABC S5)
      (sweepR gLine nodesABC S5 R5) = true := by
  decide

/-- C5 (amended): the engine's change flag alone is not a true fixpoint test
— a quiet sweep may still rewrite distance-table entries, and the following
sweep can then report changes.  Idempotence does hold for a fully stationary
state: when a sweep changes neither any distance-table entry nor any routing
entry and reports no change, re-running the sweep again produces no changes
and the identical tables. -/
theorem sweep_idempotent_at_stationary_state (g : Graph) (nodes : List Router)
    (T : Table) (R : Routing)
    (hT : ∀ n k d, sweepT g nodes T n k d = T n k d)
    (hR : ∀ n d, sweepR g nodes T R n d = R n d)
    (hq : sweepChanged g nodes T R = false) :
    sweepChanged g nodes (sweepT g nodes T) (sweepR g nodes T R) = false ∧
    (∀ n k d, sweepT g nodes (sweepT g nodes T) n k d = sweepT g nodes T n k d) ∧
    (∀ n d, sweepR g nodes (sweepT g nodes T) (sweepR g nodes T R) n d
      = sweepR g nodes T R n d) := by
  have hTf : sweepT g nodes T = T :=
    funext fun n => funext fun k => funext fun d => hT n k d
  have hRf : sweepR g nodes T R = R := funext fun n => funext fun d => hR n d
  rw [hTf, hRf]
  exact ⟨hq, hT, hR⟩

theorem TAB_sweepT_stationary : ∀ n k d, sweepT gAB nodesAB TAB n k d = TAB n k d := by
  intro n k d
  rcases eq_or_ne n "A" with hnA | hnA
  · subst hnA
    rcases eq_or_ne k "B" with hkB | hkB
    · subst hkB
      rcases eq_or_ne d "A" with hdA | hdA
      · subst hdA; rfl
      · rcases eq_or_ne d "B" with hdB | hdB
        · subst hdB; rfl
        · have hd : decide (d ∈ nodesAB) = false :=
            decide_eq_false (by simp [nodesAB, hdA, hdB])
          unfold sweepT
          rw [show glookup gAB "A" "B" = some 1 from rfl, hd]
          simp
    · have hg : glookup gAB "A" k = none := by
        show allookup k (gadj gAB "A") = none
        rw [show gadj gAB "A" = [("B", 1)] from rfl]
        simp [allookup, Ne.symm hkB]
      unfold sweepT
      rw [hg]
  · rcases eq_or_ne n "B" with hnB | hnB
    · subst hnB
      rcases eq_or_ne k "A" with hkA | hkA
      · subst hkA
        rcases eq_or_ne d "A" with hdA | hdA
        · subst hdA; rfl
        · rcases eq_or_ne d "B" with hdB | hdB
          · subst hdB; rfl
          · have hd : decide (d ∈ nodesAB) = false :=
              decide_eq_false (by simp [nodesAB, hdA, hdB])
            unfold sweepT
            rw [show glookup gAB "B" "A" = some 1 from rfl, hd]
            simp
      · have hg : glookup gAB "B" k = none := by
          show allookup k (gadj gAB "B") = none
          rw [show gadj gAB "B" = [("A", 1)] from rfl]
          simp [allookup, Ne.symm hkA]
        unfold sweepT
        rw [hg]
    · have hg : glookup gAB n k = none := by
        show allookup k (gadj gAB n) = none
        rw [show gadj gAB n
            = (if ("A" : Router) = n then [("B", 1)]
               else if ("B" : Router) = n then [("A", 1)] else []) from rfl]
        simp [Ne.symm hnA, Ne.symm hnB, allookup]
      unfold sweepT
      rw [hg]

theorem RAB_sweepR_stationary : ∀ n d, sweepR gAB nodesAB TAB RAB n d = RAB n d := by
  intro n d
  rcases eq_or_ne n "A" with hnA | hnA
  · subst hnA
    rcases eq_or_ne d "A" with hdA | hdA
    · subst hdA; rfl
    · rcases eq_or_ne d "B" with hdB | hdB
      · subst hdB; rfl
      · have hd : decide (d ∈ nodesAB) = false :=
          decide_eq_false (by simp [nodesAB, hdA, hdB])
        unfold sweepR
        rw [hd]
        simp
  · rcases eq_or_ne n "B" with hnB | hnB
    · subst hnB
      rcases eq_or_ne d "A" with hdA | hdA
      · subst hdA; rfl
      · rcases eq_or_ne d "B" with hdB | hdB
        · subst hdB; rfl
        · have hd : decide (d ∈ nodesAB) = false :=
            decide_eq_false (by simp [nodesAB, hdA, hdB])
          unfold sweepR
          rw [hd]
          simp
    · have hn : decide (n ∈ nodesAB) = false :=
        decide_eq_false (by simp [nodesAB, hnA, hnB])
      unfold sweepR
      rw [hn]
      simp

/-- Witness for the amended C5 theorem: the genuinely converged state of the
two-router topology `A-B` cost 1 is fully stationary, and one more sweep on
its sweep image reports no change. -/
theorem sweep_idempotent_at_stationary_state_witness :
    sweepChanged gAB nodesAB (sweepT gAB nodesAB TAB)
      (sweepR gAB nodesAB TAB RAB) = false :=
  (sweep_idempotent_at_stationary_state gAB nodesAB TAB RAB
    TAB_sweepT_stationary RAB_sweepR_stationary (by decide)).1

/-! ### Claim C1 -/

/-- C1 counterexample: during a reachable relaxation round the recorded
candidate differs from `cost(n,k) + best(k,d)` when `best` is taken over all
of `k`'s rows as the claim states.  After removing link `B-C` from the
converged line topology and the immediate post-update sweep, `B`'s own row
still holds the stale entry `T[B][B][C] = 1` (the removal path never touches
own rows).  In the next round the code records
`DistanceTable[A][B][C] = cost(A,B) + min over rows m ≠ B = 1 + 3 = 4`,
whereas the claim's all-rows formula gives `1 + 1 = 2`. -/
theorem candidate_over_all_rows_refuted :
    glookup (update_distance_tables gLine nodesABC [("B", "C", -1)]
        (convergeLoop gLine nodesABC 5 (initialise_distance gLine)
          (initialise_routing gLine)).1).1 "A" "B" = some 1 ∧
    sweepT
        (update_distance_tables gLine nodesABC [("B", "C", -1)]
          (convergeLoop gLine nodesABC 5 (initialise_distance gLine)
            (initialise_routing gLine)).1).1
        nodesABC
        (sweepT
          (update_distance_tables gLine nodesABC [("B", "C", -1)]
            (convergeLoop gLine nodesABC 5 (initialise_distance gLine)
              (initialise_routing gLine)).1).1
          nodesABC
          (update_distance_tables gLine nodesABC [("B", "C", -1)]
            (convergeLoop gLine nodesABC 5 (initialise_distance gLine)
              (initialise_routing gLine)).1).2)
        "A" "B" "C" = some 4 ∧
    cadd 1 (specBestAllRows nodesABC
        (sweepT
          (update_distance_tables gLine nodesABC [("B", "C", -1)]
            (convergeLoop gLine nodesABC 5 (initialise_distance gLine)
              (initialise_routing gLine)).1).1
          nodesABC
          (update_distance_tables gLine nodesABC [("B", "C", -1)]
            (convergeLoop gLine nodesABC 5 (initialise_distance gLine)
              (initialise_routing gLine)).1).2)
        "B" "C") = some 2 := by
  decide

/-- C1 (amended): for every router `n`, destination `d` and neighbour `k` of
`n` with `k ∉ {n, d}`, the candidate recorded in `DistanceTable[n][k][d]`
during a relaxation round equals `cost(n,k) + best(k,d)` where `best(k,d)`
is the minimum of `DistanceTable[k][m][d]` over rows `m ≠ k` — `k`'s own row
is excluded (`for n in nodes if n != neighbour`, line 229), not included as
the claim states; the sum is unreachable when that minimum is unreachable
(`cadd`). -/
theorem relaxation_candidate_rule (g : Graph) (nodes : List Router) (T : Table)
    (n k d : Router) (c : Int) (hk : glookup g n k = some c)
    (hn : n ∈ nodes) (hd : d ∈ nodes) (hdn : d ≠ n) (hkn : k ≠ n) (hkd : k ≠ d) :
    sweepT g nodes T n k d = cadd c (bestVia nodes T k d k) := by
  unfold sweepT
  rw [hk]
  show (if (decide (n ∈ nodes) && decide (d ∈ nodes) && decide (d ≠ n) && decide (k ≠ n))
          = true then
        (if k = d then some c else cadd c (bestVia nodes T k d k))
      else T n k d) = cadd c (bestVia nodes T k d k)
  rw [if_pos (by simp [hn, hd, hdn, hkn]), if_neg hkd]

/-- Witness for the amended C1 theorem at a concrete input. -/
theorem relaxation_candidate_rule_witness :
    glookup gLine "A" "B" = some 1 ∧
    sweepT gLine nodesABC S5 "A" "B" "C" = cadd 1 (bestVia nodesABC S5 "B" "C" "B") :=
  ⟨by decide,
   relaxation_candidate_rule gLine nodesABC S5 "A" "B" "C" 1 (by decide) (by decide)
     (by decide) (by decide) (by decide) (by decide)⟩

/-! ### Claim C2 -/

theorem tset_apply_ne (T : Table) (a b c : Router) (v : Cost) (x y z : Router)
    (h : ¬(x = a ∧ y = b ∧ z = c)) : tset T a b c v x y z = T x y z :=
  if_neg h

theorem foldl_table_frame {α : Type} (f : Table → α → Table) (x y z : Router)
    (hf : ∀ T a, f T a x y z = T x y z) :
    ∀ (l : List α) (T : Table), (l.foldl f T) x y z = T x y z := by
  intro l
  induction l with
  | nil => intro T; rfl
  | cons a as ih => intro T; rw [List.foldl_cons, ih, hf]

theorem invalStep_diag (nodes : List Router) (rl : Router → Router → Cost)
    (node neighbour : Router) (T : Table) (d : Router) (x y : Router) :
    invalStep nodes rl node neighbour T d x y y = T x y y := by
  unfold invalStep
  by_cases h1 : d ≠ node ∧ d ≠ neighbour
  · rw [if_pos h1]
    show (if T node neighbour d
            = caddC (rl node neighbour)
                (cminOver (fun m => if m = node then none else T neighbour m d) nodes) then
          tset T node neighbour d none
        else T) x y y = T x y y
    split_ifs with h2
    · exact tset_apply_ne _ _ _ _ _ _ _ _ (fun hc => h1.2 (hc.2.2.symm.trans hc.2.1))
    · rfl
  · rw [if_neg h1]

theorem invalDests_diag (nodes : List Router) (rl : Router → Router → Cost)
    (node neighbour : Router) (T : Table) (x y : Router) :
    invalDests nodes rl node neighbour T x y y = T x y y :=
  foldl_table_frame _ x y y (fun T d => invalStep_diag nodes rl node neighbour T d x y)
    nodes T

theorem invalPair_frame (nodes : List Router) (rl : Router → Router → Cost)
    (a b : Router) (T : Table) (x y : Router) (hpair : ¬(x = a ∧ y = b)) :
    invalPair nodes rl a b T x y y = T x y y := by
  unfold invalPair
  split_ifs with h
  · rw [invalDests_diag]
    exact tset_apply_ne _ _ _ _ _ _ _ _ (fun hc => hpair ⟨hc.1, hc.2.1⟩)
  · rfl

theorem updateOneEdit_frame (nodes : List Router) (rl : Router → Router → Cost)
    (st : Graph × Table) (e : Router × Router × Int) (x y : Router) (hxy : x ≠ y)
    (hpair : ¬((e.1 = x ∧ e.2.1 = y) ∨ (e.1 = y ∧ e.2.1 = x))) :
    (updateOneEdit nodes rl st e).2 x y y = st.2 x y y := by
  obtain ⟨s, t, c⟩ := e
  unfold updateOneEdit
  by_cases hc : c = -1
  · rw [if_pos hc]
    show invalPair nodes rl t s (invalPair nodes rl s t st.2) x y y = st.2 x y y
    rw [invalPair_frame nodes rl t s _ x y
        (fun hc2 => hpair (Or.inr ⟨hc2.2.symm, hc2.1.symm⟩)),
      invalPair_frame nodes rl s t _ x y
        (fun hc2 => hpair (Or.inl ⟨hc2.1.symm, hc2.2.symm⟩))]
  · rw [if_neg hc]
    show tset (tset (tset (tset st.2 s t t (some c)) t s s (some c)) s s t (some c))
        t t s (some c) x y y = st.2 x y y
    rw [tset_apply_ne _ _ _ _ _ _ _ _ (fun hc2 => hxy (hc2.1.trans hc2.2.1.symm)),
      tset_apply_ne _ _ _ _ _ _ _ _ (fun hc2 => hxy (hc2.1.trans hc2.2.1.symm)),
      tset_apply_ne _ _ _ _ _ _ _ _ (fun hc2 => hpair (Or.inr ⟨hc2.2.1.symm, hc2.1.symm⟩)),
      tset_apply_ne _ _ _ _ _ _ _ _ (fun hc2 => hpair (Or.inl ⟨hc2.1.symm, hc2.2.1.symm⟩))]

theorem foldl_updates_frame (nodes : List Router) (rl : Router → Router → Cost)
    (x y : Router) (hxy : x ≠ y) :
    ∀ (updates : List (Router × Router × Int)) (st : Graph × Table),
      (∀ e ∈ updates, ¬((e.1 = x ∧ e.2.1 = y) ∨ (e.1 = y ∧ e.2.1 = x))) →
      (updates.foldl (updateOneEdit nodes rl) st).2 x y y = st.2 x y y := by
  intro updates
  induction updates with
  | nil => intro st _; rfl
  | cons e es ih =>
    intro st h
    rw [List.foldl_cons, ih _ (fun a ha => h a (List.mem_cons_of_mem e ha)),
      updateOneEdit_frame nodes rl st e x y hxy (h e (List.mem_cons_self e es))]

theorem recomputeDestStep_diag (g : Graph) (nodes : List Router)
    (node neighbour : Router) (T : Table) (dest : Router) (x y : Router) :
    recomputeDestStep g nodes node neighbour T dest x y y = T x y y := by
  unfold recomputeDestStep
  by_cases h : dest ≠ node ∧ dest ≠ neighbour
  · rw [if_pos h]
    cases hg : glookup g node neighbour with
    | some c =>
      exact tset_apply_ne _ _ _ _ _ _ _ _ (fun hc => h.2 (hc.2.2.symm.trans hc.2.1))
    | none =>
      exact tset_apply_ne _ _ _ _ _ _ _ _ (fun hc => h.2 (hc.2.2.symm.trans hc.2.1))
  · rw [if_neg h]

theorem recomputeNbrStep_diag (g : Graph) (nodes : List Router) (node : Router)
    (T : Table) (neighbour : Router) (x y : Router) :
    recomputeNbrStep g nodes node T neighbour x y y = T x y y := by
  unfold recomputeNbrStep
  split_ifs
  · exact foldl_table_frame _ x y y
      (fun T d => recomputeDestStep_diag g nodes node neighbour T d x y) nodes T
  · rfl

theorem recomputeNodeStep_diag (g : Graph) (nodes : List Router) (T : Table)
    (node : Router) (x y : Router) :
    recomputeNodeStep g nodes T node x y y = T x y y :=
  foldl_table_frame _ x y y
    (fun T nb => recomputeNbrStep_diag g nodes node T nb x y) nodes T

theorem recomputePass_diag (g : Graph) (nodes : List Router) (T : Table)
    (x y : Router) : recomputePass g nodes T x y y = T x y y :=
  foldl_table_frame _ x y y
    (fun T node => recomputeNodeStep_diag g nodes T node x y) nodes T

/-- C2 counterexample: the claim says every entry not describing an edited
direct link is unchanged when re-convergence starts.  On the converged line
topology, applying the single edit adding link `A-C` cost 1 changes the
multi-hop entry `DistanceTable[A][C][B]` (row `C`, destination `B` — not a
direct-link entry of the edited pair) from unreachable to 2 inside
`update_distance_tables`, before any re-convergence sweep runs, because the
applier recomputes all multi-hop entries (lines 102-122). -/
theorem update_frame_refuted :
    (convergeLoop gLine nodesABC 5 (initialise_distance gLine)
      (initialise_routing gLine)).1 "A" "C" "B" = none ∧
    (update_distance_tables gLine nodesABC [("A", "C", 1)]
      (convergeLoop gLine nodesABC 5 (initialise_distance gLine)
        (initialise_routing gLine)).1).2 "A" "C" "B" = some 2 := by
  decide

/-- C2 (amended): the Update Applier does not wholesale reset any row — the
direct-link entries `DistanceTable[n][k][k]` of every pair `{n,k}` named by
no edit are left exactly unchanged when re-convergence starts — but it is
not a pure frame either: all multi-hop entries (`dest ∉ {node, neighbour}`)
are recomputed from the updated graph inside `update_distance_tables`, so
entries not describing an edited direct link can change before the first
re-convergence sweep. -/
theorem update_preserves_unedited_direct_entries (g : Graph)
    (nodes : List Router) (updates : List (Router × Router × Int)) (T : Table)
    (n k : Router) (hnk : n ≠ k)
    (h : ∀ e ∈ updates, ¬((e.1 = n ∧ e.2.1 = k) ∨ (e.1 = k ∧ e.2.1 = n))) :
    (update_distance_tables g nodes updates T).2 n k k = T n k k := by
  unfold update_distance_tables
  show recomputePass
      (List.foldl (updateOneEdit nodes (removedLookup g updates)) (g, T) updates).1 nodes
      (List.foldl (updateOneEdit nodes (removedLookup g updates)) (g, T) updates).2
      n k k = T n k k
  rw [recomputePass_diag,
    foldl_updates_frame nodes (removedLookup g updates) n k hnk updates (g, T) h]

/-- Witness for the amended C2 theorem: the direct entry
`DistanceTable[A][B][B]` survives the removal of the unrelated link `B-C`. -/
theorem update_preserves_unedited_direct_entries_witness :
    (update_distance_tables gLine nodesABC [("B", "C", -1)]
      (initialise_distance gLine)).2 "A" "B" "B"
      = initialise_distance gLine "A" "B" "B" :=
  update_preserves_unedited_direct_entries gLine nodesABC [("B", "C", -1)]
    (initialise_distance gLine) "A" "B" (by decide) (by decide)

/-! ### Claim C6 -/

theorem osc_stepA (k : Int) (T : Table) (R : Routing) (hT : InvA k T) (hR : InvR6 R) :
    sweepChanged gCut nodesABC T R = true ∧ InvB (1 + k) (sweepT gCut nodesABC T) ∧
    InvR6 (sweepR gCut nodesABC T R) := by
  obtain ⟨a1, a2, a3, a4, a5, a6, b1, b2, b3, b4, b5, b6⟩ := hT
  obtain ⟨r1, r2, r3, r4⟩ := hR
  have hbv1 : bestVia nodesABC T "B" "C" "B" = some k := by
    rw [show bestVia nodesABC T "B" "C" "B"
        = cmin (T "B" "A" "C") (cmin none (cmin (T "B" "C" "C") none)) from rfl, b4, b6]
    rfl
  have hbv2 : bestVia nodesABC T "A" "C" "A" = none := by
    rw [show bestVia nodesABC T "A" "C" "A"
        = cmin none (cmin (T "A" "B" "C") (cmin (T "A" "C" "C") none)) from rfl, a5, a6]
    rfl
  have hselAC : select gCut nodesABC T "A" "C" = (some (1 + k), some "B") := by
    rw [show select gCut nodesABC T "A" "C"
        = (if clt (cadd 1 (bestVia nodesABC T "B" "C" "B")) none = true then
            (cadd 1 (bestVia nodesABC T "B" "C" "B"), some "B")
          else (none, none)) from rfl, hbv1]
    rfl
  have hselBC : select gCut nodesABC T "B" "C" = (none, none) := by
    rw [show select gCut nodesABC T "B" "C"
        = (if clt (cadd 1 (bestVia nodesABC T "A" "C" "A")) none = true then
            (cadd 1 (bestVia nodesABC T "A" "C" "A"), some "A")
          else (none, none)) from rfl, hbv2]
    rfl
  have hpcAB : pairChanged gCut nodesABC T R "A" "B" = false := by
    unfold pairChanged
    rw [show select gCut nodesABC T "A" "B" = ((some 1 : Cost), some "B") from rfl]
    show (!(decide ((some 1 : Cost) = old_cost nodesABC T "A" "B")
        && decide ((some "B" : Option Router) = R "A" "B"))) = false
    rw [show old_cost nodesABC T "A" "B"
        = cmin (T "A" "A" "B") (cmin (T "A" "B" "B") (cmin (T "A" "C" "B") none)) from rfl,
      a1, a2, a3, r1]
    rfl
  have hpcAC : pairChanged gCut nodesABC T R "A" "C" = true := by
    unfold pairChanged
    rw [hselAC]
    show (!(decide ((some (1 + k) : Cost) = old_cost nodesABC T "A" "C")
        && decide ((some "B" : Option Router) = R "A" "C"))) = true
    rw [show old_cost nodesABC T "A" "C"
        = cmin (T "A" "A" "C") (cmin (T "A" "B" "C") (cmin (T "A" "C" "C") none)) from rfl,
      a4, a5, a6, r2]
    rfl
  have hpcBA : pairChanged gCut nodesABC T R "B" "A" = false := by
    unfold pairChanged
    rw [show select gCut nodesABC T "B" "A" = ((some 1 : Cost), some "A") from rfl]
    show (!(decide ((some 1 : Cost) = old_cost nodesABC T "B" "A")
        && decide ((some "A" : Option Router) = R "B" "A"))) = false
    rw [show old_cost nodesABC T "B" "A"
        = cmin (T "B" "A" "A") (cmin (T "B" "B" "A") (cmin (T "B" "C" "A") none)) from rfl,
      b1, b2, b3, r3]
    rfl
  have hpcBC : pairChanged gCut nodesABC T R "B" "C" = false := by
    unfold pairChanged
    rw [hselBC]
  refine ⟨?_, ?_, ?_⟩
  · unfold sweepChanged
    refine List.any_eq_true.mpr ⟨"A", by decide, List.any_eq_true.mpr ⟨"C", by decide, ?_⟩⟩
    rw [hpcAC]
    rfl
  · refine ⟨a1, rfl, a3, a4, ?_, a6, rfl, b2, b3, ?_, b5, b6⟩
    · rw [show sweepT gCut nodesABC T "A" "B" "C"
          = cadd 1 (bestVia nodesABC T "B" "C" "B") from rfl, hbv1]
      rfl
    · rw [show sweepT gCut nodesABC T "B" "A" "C"
          = cadd 1 (bestVia nodesABC T "A" "C" "A") from rfl, hbv2]
      rfl
  · refine ⟨?_, ?_, ?_, ?_⟩
    · rw [show sweepR gCut nodesABC T R "A" "B"
          = (if pairChanged gCut nodesABC T R "A" "B" = true then
              (select gCut nodesABC T "A" "B").2
            else R "A" "B") from rfl, hpcAB]
      exact r1
    · rw [show sweepR gCut nodesABC T R "A" "C"
          = (if pairChanged gCut nodesABC T R "A" "C" = true then
              (select gCut nodesABC T "A" "C").2
            else R "A" "C") from rfl, hpcAC, hselAC]
      rfl
    · rw [show sweepR gCut nodesABC T R "B" "A"
          = (if pairChanged gCut nodesABC T R "B" "A" = true then
              (select gCut nodesABC T "B" "A").2
            else R "B" "A") from rfl, hpcBA]
      exact r3
    · rw [show sweepR gCut nodesABC T R "B" "C"
          = (if pairChanged gCut nodesABC T R "B" "C" = true then
              (select gCut nodesABC T "B" "C").2
            else R "B" "C") from rfl, hpcBC]
      exact r4

theorem osc_stepB (k : Int) (T : Table) (R : Routing) (hk : 1 ≤ k)
    (hT : InvB k T) (hR : InvR6 R) :
    sweepChanged gCut nodesABC T R = true ∧ InvA (1 + k) (sweepT gCut nodesABC T) ∧
    InvR6 (sweepR gCut nodesABC T R) := by
  obtain ⟨a1, a2, a3, a4, a5, a6, b1, b2, b3, b4, b5, b6⟩ := hT
  obtain ⟨r1, r2, r3, r4⟩ := hR
  have hbv1 : bestVia nodesABC T "B" "C" "B" = none := by
    rw [show bestVia nodesABC T "B" "C" "B"
        = cmin (T "B" "A" "C") (cmin none (cmin (T "B" "C" "C") none)) from rfl, b4, b6]
    rfl
  have hbv2 : bestVia nodesABC T "A" "C" "A" = some k := by
    rw [show bestVia nodesABC T "A" "C" "A"
        = cmin none (cmin (T "A" "B" "C") (cmin (T "A" "C" "C") none)) from rfl, a5, a6]
    rfl
  have hselAC : select gCut nodesABC T "A" "C" = (none, none) := by
    rw [show select gCut nodesABC T "A" "C"
        = (if clt (cadd 1 (bestVia nodesABC T "B" "C" "B")) none = true then
            (cadd 1 (bestVia nodesABC T "B" "C" "B"), some "B")
          else (none, none)) from rfl, hbv1]
    rfl
  have hselBC : select gCut nodesABC T "B" "C" = (some (1 + k), some "A") := by
    rw [show select gCut nodesABC T "B" "C"
        = (if clt (cadd 1 (bestVia nodesABC T "A" "C" "A")) none = true then
            (cadd 1 (bestVia nodesABC T "A" "C" "A"), some "A")
          else (none, none)) from rfl, hbv2]
    rfl
  have hpcAB : pairChanged gCut nodesABC T R "A" "B" = false := by
    unfold pairChanged
    rw [show select gCut nodesABC T "A" "B" = ((some 1 : Cost), some "B") from rfl]
    show (!(decide ((some 1 : Cost) = old_cost nodesABC T "A" "B")
        && decide ((some "B" : Option Router) = R "A" "B"))) = false
    rw [show old_cost nodesABC T "A" "B"
        = cmin (T "A" "A" "B") (cmin (T "A" "B" "B") (cmin (T "A" "C" "B") none)) from rfl,
      a1, a2, a3, r1]
    rfl
  have hpcAC : pairChanged gCut nodesABC T R "A" "C" = false := by
    unfold pairChanged
    rw [hselAC]
  have hpcBA : pairChanged gCut nodesABC T R "B" "A" = false := by
    unfold pairChanged
    rw [show select gCut nodesABC T "B" "A" = ((some 1 : Cost), some "A") from rfl]
    show (!(decide ((some 1 : Cost) = old_cost nodesABC T "B" "A")
        && decide ((some "A" : Option Router) = R "B" "A"))) = false
    rw [show old_cost nodesABC T "B" "A"
        = cmin (T "B" "A" "A") (cmin (T "B" "B" "A") (cmin (T "B" "C" "A") none)) from rfl,
      b1, b2, b3, r3]
    rfl
  have hne : ¬((some (1 + k) : Cost) = some 1) := by
    intro hcon
    have h2 := Option.some.inj hcon
    omega
  have hpcBC : pairChanged gCut nodesABC T R "B" "C" = true := by
    unfold pairChanged
    rw [hselBC]
    show (!(decide ((some (1 + k) : Cost) = old_cost nodesABC T "B" "C")
        && decide ((some "A" : Option Router) = R "B" "C"))) = true
    rw [show old_cost nodesABC T "B" "C"
        = cmin (T "B" "A" "C") (cmin (T "B" "B" "C") (cmin (T "B" "C" "C") none)) from rfl,
      b4, b5, b6,
      show cmin (none : Cost) (cmin (some 1) (cmin none none)) = some 1 from rfl,
      decide_eq_false hne, r4]
    rfl
  refine ⟨?_, ?_, ?_⟩
  · unfold sweepChanged
    refine List.any_eq_true.mpr ⟨"B", by decide, List.any_eq_true.mpr ⟨"C", by decide, ?_⟩⟩
    rw [hpcBC]
    rfl
  · refine ⟨a1, rfl, a3, a4, ?_, a6, rfl, b2, b3, ?_, b5, b6⟩
    · rw [show sweepT gCut nodesABC T "A" "B" "C"
          = cadd 1 (bestVia nodesABC T "B" "C" "B") from rfl, hbv1]
      rfl
    · rw [show sweepT gCut nodesABC T "B" "A" "C"
          = cadd 1 (bestVia nodesABC T "A" "C" "A") from rfl, hbv2]
      rfl
  · refine ⟨?_, ?_, ?_, ?_⟩
    · rw [show sweepR gCut nodesABC T R "A" "B"
          = (if pairChanged gCut nodesABC T R "A" "B" = true then
              (select gCut nodesABC T "A" "B").2
            else R "A" "B") from rfl, hpcAB]
      exact r1
    · rw [show sweepR gCut nodesABC T R "A" "C"
          = (if pairChanged gCut nodesABC T R "A" "C" = true then
              (select gCut nodesABC T "A" "C").2
            else R "A" "C") from rfl, hpcAC]
      exact r2
    · rw [show sweepR gCut nodesABC T R "B" "A"
          = (if pairChanged gCut nodesABC T R "B" "A" = true then
              (select gCut nodesABC T "B" "A").2
            else R "B" "A") from rfl, hpcBA]
      exact r3
    · rw [show sweepR gCut nodesABC T R "B" "C"
          = (if pairChanged gCut nodesABC T R "B" "C" = true then
              (select gCut nodesABC T "B" "C").2
            else R "B" "C") from rfl, hpcBC, hselBC]
      rfl

theorem osc_loop_never_converges :
    ∀ (fuel : Nat) (T : Table) (R : Routing), Inv6 T → InvR6 R →
      (convergeLoop gCut nodesABC fuel T R).2.2 = false := by
  intro fuel
  induction fuel with
  | zero => intro T R _ _; rfl
  | succ f ih =>
    intro T R hI hR
    obtain ⟨k, hk, hA | hB⟩ := hI
    · obtain ⟨hch, hT2, hR2⟩ := osc_stepA k T R hA hR
      rw [show convergeLoop gCut nodesABC (Nat.succ f) T R
          = (if sweepChanged gCut nodesABC T R = true then
              convergeLoop gCut nodesABC f (sweepT gCut nodesABC T)
                (sweepR gCut nodesABC T R)
            else (sweepT gCut nodesABC T, sweepR gCut nodesABC T R, true)) from rfl,
        hch, if_pos rfl]
      exact ih _ _ ⟨1 + k, by omega, Or.inr hT2⟩ hR2
    · obtain ⟨hch, hT2, hR2⟩ := osc_stepB k T R hk hB hR
      rw [show convergeLoop gCut nodesABC (Nat.succ f) T R
          = (if sweepChanged gCut nodesABC T R = true then
              convergeLoop gCut nodesABC f (sweepT gCut nodesABC T)
                (sweepR gCut nodesABC T R)
            else (sweepT gCut nodesABC T, sweepR gCut nodesABC T R, true)) from rfl,
        hch, if_pos rfl]
      exact ih _ _ ⟨1 + k, by omega, Or.inl hT2⟩ hR2

theorem distance_vector_ok_eq (fuel : Nat) (g : Graph) (nodes : List Router)
    (e : Router × Router × Int) (es : List (Router × Router × Int)) :
    (distance_vector fuel g nodes (e :: es)).ok =
      ((convergeLoop g nodes fuel (initialise_distance g) (initialise_routing g)).2.2 &&
       (convergeLoop
          (update_distance_tables g nodes (e :: es)
            (convergeLoop g nodes fuel (initialise_distance g) (initialise_routing g)).1).1
          nodes fuel
          (sweepT
            (update_distance_tables g nodes (e :: es)
              (convergeLoop g nodes fuel (initialise_distance g)
                (initialise_routing g)).1).1
            nodes
            (update_distance_tables g nodes (e :: es)
              (convergeLoop g nodes fuel (initialise_distance g)
                (initialise_routing g)).1).2)
          (sweepR
            (update_distance_tables g nodes (e :: es)
              (convergeLoop g nodes fuel (initialise_distance g)
                (initialise_routing g)).1).1
            nodes
            (update_distance_tables g nodes (e :: es)
              (convergeLoop g nodes fuel (initialise_distance g)
                (initialise_routing g)).1).2
            (convergeLoop g nodes fuel (initialise_distance g)
              (initialise_routing g)).2.1)).2.2) := rfl

/-- C6: the convergence loop has no round bound at all.  On the line
topology `A-B` 1, `B-C` 1 with the single update removing `B-C`, the stale
own-row entry `DistanceTable[B][B][C] = 1` (which the removal path never
invalidates) keeps generating finite candidates, the selected cost for
destination `C` grows without bound, every sweep flags a change, and the
`while not converged` loop of line 201 never terminates: for every fuel
value the embedded loop fails to reach a fixpoint, and no "did not
converge" condition is ever reported because none exists in the program. -/
theorem no_round_bound_nontermination :
    ∀ fuel : Nat, (distance_vector fuel gLine nodesABC [("B", "C", -1)]).ok = false := by
  intro fuel
  cases fuel with
  | zero => decide
  | succ f1 =>
    cases f1 with
    | zero => decide
    | succ f =>
      have hp1 : convergeLoop gLine nodesABC (Nat.succ (Nat.succ f))
          (initialise_distance gLine) (initialise_routing gLine)
          = (sweepT gLine nodesABC (sweepT gLine nodesABC (initialise_distance gLine)),
             sweepR gLine nodesABC (sweepT gLine nodesABC (initialise_distance gLine))
               (sweepR gLine nodesABC (initialise_distance gLine)
                 (initialise_routing gLine)),
             true) := by
        rw [show convergeLoop gLine nodesABC (Nat.succ (Nat.succ f))
              (initialise_distance gLine) (initialise_routing gLine)
            = (if sweepChanged gLine nodesABC (initialise_distance gLine)
                  (initialise_routing gLine) = true then
                convergeLoop gLine nodesABC (Nat.succ f)
                  (sweepT gLine nodesABC (initialise_distance gLine))
                  (sweepR gLine nodesABC (initialise_distance gLine)
                    (initialise_routing gLine))
              else (sweepT gLine nodesABC (initialise_distance gLine),
                    sweepR gLine nodesABC (initialise_distance gLine)
                      (initialise_routing gLine), true)) from rfl,
          show sweepChanged gLine nodesABC (initialise_distance gLine)
              (initialise_routing gLine) = true from by decide,
          if_pos rfl,
          show convergeLoop gLine nodesABC (Nat.succ f)
              (sweepT gLine nodesABC (initialise_distance gLine))
              (sweepR gLine nodesABC (initialise_distance gLine)
                (initialise_routing gLine))
            = (if sweepChanged gLine nodesABC
                  (sweepT gLine nodesABC (initialise_distance gLine))
                  (sweepR gLine nodesABC (initialise_distance gLine)
                    (initialise_routing gLine)) = true then
                convergeLoop gLine nodesABC f
                  (sweepT gLine nodesABC (sweepT gLine nodesABC
                    (initialise_distance gLine)))
                  (sweepR gLine nodesABC (sweepT gLine nodesABC
                      (initialise_distance gLine))
                    (sweepR gLine nodesABC (initialise_distance gLine)
                      (initialise_routing gLine)))
              else (sweepT gLine nodesABC (sweepT gLine nodesABC
                      (initialise_distance gLine)),
                    sweepR gLine nodesABC (sweepT gLine nodesABC
                        (initialise_distance gLine))
                      (sweepR gLine nodesABC (initialise_distance gLine)
                        (initialise_routing gLine)), true)) from rfl,
          show sweepChanged gLine nodesABC
              (sweepT gLine nodesABC (initialise_distance gLine))
              (sweepR gLine nodesABC (initialise_distance gLine)
                (initialise_routing gLine)) = false from by decide,
          if_neg Bool.false_ne_true]
      have h1 : (convergeLoop gLine nodesABC (Nat.succ (Nat.succ f))
          (initialise_distance gLine) (initialise_routing gLine)).2.2 = true := by
        rw [hp1]
      have h2 : (convergeLoop gLine nodesABC (Nat.succ (Nat.succ f))
          (initialise_distance gLine) (initialise_routing gLine)).1
          = sweepT gLine nodesABC (sweepT gLine nodesABC (initialise_distance gLine)) := by
        rw [hp1]
      have h3 : (convergeLoop gLine nodesABC (Nat.succ (Nat.succ f))
          (initialise_distance gLine) (initialise_routing gLine)).2.1
          = sweepR gLine nodesABC (sweepT gLine nodesABC (initialise_distance gLine))
              (sweepR gLine nodesABC (initialise_distance gLine)
                (initialise_routing gLine)) := by
        rw [hp1]
      rw [distance_vector_ok_eq, h1, h2, h3, Bool.true_and,
        show (update_distance_tables gLine nodesABC [("B", "C", -1)]
            (sweepT gLine nodesABC (sweepT gLine nodesABC
              (initialise_distance gLine)))).1 = gCut from by decide]
      exact osc_loop_never_converges (Nat.succ (Nat.succ f)) _ _
        ⟨3, by omega, Or.inl (by decide)⟩ (by decide)
